import Mathlib

/-!
Verification of the fault-tolerant retry supervisor (src/orchestrator/recovery.py)
and the checkpoint manifest manager (src/engine/state.py).

Conventions of the embedding:
* Python floats are modelled as rationals (ℚ); the arithmetic the claims touch
  (min, multiplication by powers of two) is exact in both.
* Python exceptions are modelled by their textual rendering (String), since the
  fault classifier only ever consumes str(exc).
* Filesystem paths are modelled relative to the handler's root directory, which
  is fixed; os.path.join(root, name) is the bijective prefixing by the root and
  does not affect any property stated here.
* The opaque state serializer (torch.save / torch.load) is an external
  collaborator; whether a load of a given path raises is an oracle parameter.
* wall-clock readings (time.time()) are threaded as explicit arguments.
-/

/-! ### Fault classifier (recovery.py, classify_fault / RETRIABLE_SIGNATURES) -/

inductive FaultType where
  | RETRIABLE
  | NON_RETRIABLE
deriving DecidableEq

def RETRIABLE_SIGNATURES : List String :=
  ["nccl", "connection reset", "timeout", "cuda error: out of memory",
   "runtimeerror: cuda error"]

/-- str.lower() on the rendered failure text, at the character level. -/
def lowerData (text : String) : List Char := text.data.map Char.toLower

/-- classify_fault: scan the lowered failure text for any transient signature
substring; any match is RETRIABLE, no match is NON_RETRIABLE. -/
def classify_fault (text : String) : FaultType :=
  let t := lowerData text
  if RETRIABLE_SIGNATURES.any (fun sig => decide (sig.data <:+: t)) then
    FaultType.RETRIABLE
  else
    FaultType.NON_RETRIABLE

/-! ### Retry policy (recovery.py, RetryPolicy) -/

structure RetryPolicy where
  max_retries : Nat
  base_backoff : ℚ
  max_backoff : ℚ
deriving DecidableEq

/-- backoff_for: exponential backoff capped at max_backoff. -/
def RetryPolicy.backoff_for (p : RetryPolicy) (attempt : Nat) : ℚ :=
  min p.max_backoff (p.base_backoff * 2 ^ attempt)

/-! ### Retry supervisor (recovery.py, run_with_retries)

The work function is 0-ary with effects; successive invocations may behave
differently, so it is modelled as a function from the invocation index to the
outcome of that invocation (success, or the text of the raised exception).
The returned record collects the number of invocations, the sequence of sleeps
performed (in seconds), and the final outcome. -/

deriving instance DecidableEq for Except

structure RunResult where
  calls : Nat
  sleeps : List ℚ
  outcome : Except String Unit
deriving DecidableEq

/-- The retry loop. `attempt` is the loop counter of the source; `fuel` is
`max_retries - attempt`, which bounds the recursion (the loop only recurses
while attempt < max_retries, so the fuel-exhausted branch of the retriable
case is unreachable; it returns the same propagated failure as the
retries-exhausted exit). -/
def run_aux (fn : Nat → Except String Unit) (p : RetryPolicy) :
    Nat → Nat → RunResult
  | attempt, fuel =>
    match fn attempt with
    | Except.ok _ => ⟨1, [], Except.ok ()⟩
    | Except.error e =>
      if classify_fault e = FaultType.RETRIABLE ∧ attempt < p.max_retries then
        match fuel with
        | 0 => ⟨1, [], Except.error e⟩
        | fuel + 1 =>
          let r := run_aux fn p (attempt + 1) fuel
          ⟨r.calls + 1, p.backoff_for attempt :: r.sleeps, r.outcome⟩
      else
        ⟨1, [], Except.error e⟩

def run_with_retries (fn : Nat → Except String Unit) (p : RetryPolicy) :
    RunResult :=
  run_aux fn p 0 p.max_retries

/-! ### Graceful terminator (recovery.py, GracefulTerminator)

A process-wide latch: `terminate` records whether the SIGTERM handler has
fired (threading.Event().is_set()). Note that nothing in run_with_retries
consumes this latch: the source sleeps with a plain time.sleep. -/

structure GracefulTerminator where
  terminate : Bool

def GracefulTerminator.should_terminate (g : GracefulTerminator) : Bool :=
  g.terminate

/-! ### Checkpoint store data model (state.py) -/

def STATE_FILE : String := "state.pt"

def META_FILE : String := "meta.json"

/-- CheckpointInfo dataclass: step, path, loss, timestamp, ok. -/
structure CheckpointInfo where
  step : Nat
  path : String
  loss : Option ℚ
  timestamp : ℚ
  ok : Bool
deriving DecidableEq

/-- The manifest.json object: latest step pointer plus the bounded history.
A history entry carries exactly the CheckpointInfo fields. -/
structure Manifest where
  latest : Option Nat
  checkpoints : List CheckpointInfo
deriving DecidableEq

/-- A checkpoint directory, reduced to the names of the entries it contains;
the claims only ever inspect which files exist, never file contents (the state
blob is opaque, and the metadata JSON is written but never read back). -/
structure CkptDir where
  files : List String
deriving DecidableEq

/-- The checkpoint root directory: its subdirectories (name paired with
contents; names are paths relative to the root) and the manifest file
(none while manifest.json does not exist). -/
structure FS where
  dirs : List (String × CkptDir) := []
  manifest : Option Manifest := none
deriving DecidableEq

def findDir : List (String × CkptDir) → String → Option CkptDir
  | [], _ => none
  | e :: es, p => if e.1 = p then some e.2 else findDir es p

def removeEntry : List (String × CkptDir) → String → List (String × CkptDir)
  | [], _ => []
  | e :: es, p => if e.1 = p then removeEntry es p else e :: removeEntry es p

/-- os.path.exists / os.listdir on a directory path. -/
def FS.lookupDir (fs : FS) (p : String) : Option CkptDir := findDir fs.dirs p

/-- shutil.rmtree. -/
def FS.removeDir (fs : FS) (p : String) : FS :=
  { fs with dirs := removeEntry fs.dirs p }

/-- Create or overwrite a directory entry. -/
def FS.setDir (fs : FS) (p : String) (d : CkptDir) : FS :=
  { fs with dirs := removeEntry fs.dirs p ++ [(p, d)] }

/-- os.makedirs(p, exist_ok=True). -/
def FS.makedirs (fs : FS) (p : String) : FS :=
  match fs.lookupDir p with
  | some _ => fs
  | none => fs.setDir p ⟨[]⟩

/-- Atomically write file fname inside directory p (write .tmp sibling then
os.replace); a no-op when the directory does not exist (the real call would
raise, which no modelled flow reaches). -/
def FS.addFile (fs : FS) (p fname : String) : FS :=
  match fs.lookupDir p with
  | some d =>
    fs.setDir p ⟨if d.files.contains fname then d.files else d.files ++ [fname]⟩
  | none => fs

/-- os.replace(src, dst) on directories: atomic rename over the destination. -/
def FS.renameDir (fs : FS) (src dst : String) : FS :=
  match fs.lookupDir src with
  | some d => (fs.removeDir src).setDir dst d
  | none => fs

/-! ### Path naming (state.py, NodeStateHandler.checkpoint_dir) -/

def digitChar (d : Nat) : Char := Char.ofNat (48 + d)

/-- Decimal digits of n, most significant first (fuel-structural so that it
evaluates inside the kernel; n + 1 always covers the number of digits). -/
def natDigitsAux : Nat → Nat → List Char
  | 0, _ => []
  | fuel + 1, n =>
    if n < 10 then [digitChar n]
    else natDigitsAux fuel (n / 10) ++ [digitChar (n % 10)]

def natDigits (n : Nat) : List Char := natDigitsAux (n + 1) n

/-- Python f"{n:08d}": zero-pad the decimal rendering to (at least) width 8. -/
def pad8 (n : Nat) : String :=
  ⟨List.replicate (8 - (natDigits n).length) '0' ++ natDigits n⟩

/-- checkpoint_dir(step), relative to the root. -/
def checkpoint_dir (step : Nat) : String := "step_" ++ pad8 step

/-! ### Manifest operations (state.py) -/

/-- _load_manifest: missing file reads as the empty manifest. -/
def load_manifest (fs : FS) : Manifest := fs.manifest.getD ⟨none, []⟩

/-- _write_manifest (atomic temp-file-then-rename replacement). -/
def write_manifest (fs : FS) (m : Manifest) : FS := { fs with manifest := some m }

/-- Python l[-20:] generalised: the last n elements of l. -/
def lastN (l : List α) (n : Nat) : List α := l.drop (l.length - n)

/-- _record_checkpoint: append the record, keep only the last 20 entries, and
advance latest to this step only when the record is ok. -/
def record_checkpoint (fs : FS) (info : CheckpointInfo) : FS :=
  let m := load_manifest fs
  let entries := m.checkpoints ++ [info]
  write_manifest fs
    ⟨if info.ok then some info.step else m.latest, lastN entries 20⟩

/-! ### save (state.py, NodeStateHandler.save)

`envMain` is the ambient is_main_process() of the external communication
layer, consulted when the is_main argument is omitted (None). Both branches
synchronize at the external barrier; `barriered` records that the barrier
primitive was invoked before returning. -/

structure SaveResult where
  fs : FS
  location : String
  barriered : Bool
deriving DecidableEq

def save (envMain : Bool) (fs : FS) (step : Nat) (loss : Option ℚ)
    (is_main : Option Bool) (now : ℚ) : SaveResult :=
  let should_write := is_main.getD envMain
  if !should_write then
    ⟨fs, "", true⟩
  else
    let ckpt_dir := checkpoint_dir step
    let tmp_dir := ckpt_dir ++ ".tmp"
    let fs1 := if (fs.lookupDir tmp_dir).isSome then fs.removeDir tmp_dir else fs
    let fs2 := fs1.makedirs tmp_dir
    let fs3 := fs2.addFile tmp_dir STATE_FILE
    let fs4 := fs3.addFile tmp_dir META_FILE
    let fs5 := fs4.renameDir tmp_dir ckpt_dir
    let fs6 := record_checkpoint fs5 ⟨step, ckpt_dir, loss, now, true⟩
    ⟨fs6, ckpt_dir, true⟩

/-! ### Directory scan and validity check (state.py) -/

def digitsToNat (ds : List Char) : Nat :=
  ds.foldl (fun acc c => acc * 10 + (c.toNat - 48)) 0

/-- re.match(r"step_(\d+)", name): anchored at the start only — the name must
begin with "step_" followed by at least one digit, and group(1) is the maximal
digit run that follows. The pattern is not anchored at the end, so e.g.
"step_00000007.tmp" matches with group "00000007". -/
def parseStepPrefix (name : String) : Option Nat :=
  if "step_".data.isPrefixOf name.data then
    let digits := (name.data.drop 5).takeWhile Char.isDigit
    if digits.isEmpty then none else some (digitsToNat digits)
  else none

/-- Stable insertion (descending by step): x goes after every element whose
step is ≥ its own, mirroring the stability of Python's list.sort. -/
def insertDesc (x : Nat × String) : List (Nat × String) → List (Nat × String)
  | [] => [x]
  | y :: ys => if y.1 < x.1 then x :: y :: ys else y :: insertDesc x ys

/-- list.sort(key=step, reverse=True): stable descending sort. -/
def sortDesc (l : List (Nat × String)) : List (Nat × String) :=
  l.foldl (fun acc x => insertDesc x acc) []

/-- _scan_checkpoint_dirs: every root entry whose name matches the step
pattern, sorted by step descending. -/
def scan_checkpoint_dirs (fs : FS) : List (Nat × String) :=
  sortDesc (fs.dirs.filterMap
    (fun e => (parseStepPrefix e.1).map (fun s => (s, e.1))))

/-- _is_valid_checkpoint: the directory exists, has the metadata file, and has
the state artifact or a non-empty listing. -/
def is_valid_checkpoint (fs : FS) (path : String) : Bool :=
  match fs.lookupDir path with
  | none => false
  | some d =>
    let has_state := d.files.contains STATE_FILE
    let has_meta := d.files.contains META_FILE
    has_meta && (has_state || !d.files.isEmpty)

/-- The validity condition as the spec words it: the directory must exist,
contain the metadata file, and contain either the primary state artifact or at
least one file other than the metadata file. Stated for comparison with
is_valid_checkpoint, which is translated from the code. -/
def spec_valid_checkpoint (fs : FS) (path : String) : Bool :=
  match fs.lookupDir path with
  | none => false
  | some d =>
    d.files.contains META_FILE &&
      (d.files.contains STATE_FILE || d.files.any (fun f => f != META_FILE))

/-- First element of the fallback scan that passes the validity check,
packaged as latest_checkpoint packages it. -/
def scanFirstValid (fs : FS) : Option CheckpointInfo :=
  ((scan_checkpoint_dirs fs).find? (fun c => is_valid_checkpoint fs c.2)).map
    (fun c => ⟨c.1, c.2, none, 0, true⟩)

/-- latest_checkpoint: trust the manifest pointer when the derived step_<N>
directory re-verifies on disk; otherwise fall back to the scan. On the fast
path the returned record is rebuilt from the step number alone (path derived,
loss and timestamp left at the dataclass defaults None / 0.0, ok True). -/
def latest_checkpoint (fs : FS) : Option CheckpointInfo :=
  let m := load_manifest fs
  match m.latest with
  | some latest =>
    let path := checkpoint_dir latest
    if is_valid_checkpoint fs path then some ⟨latest, path, none, 0, true⟩
    else scanFirstValid fs
  | none => scanFirstValid fs

/-! ### record_external and load_latest_checkpoint (state.py) -/

/-- record_external: makedirs the given path, write only the metadata file
there, and record an ok CheckpointRecord at that (possibly foreign) path. -/
def record_external (fs : FS) (step : Nat) (path : String) (loss : Option ℚ)
    (now : ℚ) : FS :=
  let fs1 := fs.makedirs path
  let fs2 := fs1.addFile path META_FILE
  record_checkpoint fs2 ⟨step, path, loss, now, true⟩

/-- The except-branch of load_latest_checkpoint: flip ok to False on every
history entry whose step matches; the latest pointer is not touched. -/
def mark_checkpoint_bad (fs : FS) (step : Nat) : FS :=
  let m := load_manifest fs
  write_manifest fs
    ⟨m.latest,
     m.checkpoints.map (fun c => if c.step = step then { c with ok := false } else c)⟩

/-- load_latest_checkpoint. torch.load of the artifact is the opaque external
deserializer; `loadFails path` says whether loading that path raises. On a
load failure the matching record is marked bad and nothing is returned. -/
def load_latest_checkpoint (fs : FS) (loadFails : String → Bool) :
    FS × Option CheckpointInfo :=
  match latest_checkpoint fs with
  | none => (fs, none)
  | some info =>
    if loadFails info.path then (mark_checkpoint_bad fs info.step, none)
    else (fs, some info)

/-! ### Operation sequences over one checkpoint root -/

inductive MgrOp where
  | save (step : Nat) (loss : Option ℚ) (is_main : Option Bool) (now : ℚ)
  | recordExternal (step : Nat) (path : String) (loss : Option ℚ) (now : ℚ)
  | loadLatest (loadFails : String → Bool)

def MgrOp.isLoadLatest : MgrOp → Bool
  | .loadLatest _ => true
  | _ => false

def applyOp (envMain : Bool) (fs : FS) : MgrOp → FS
  | .save step loss is_main now => (save envMain fs step loss is_main now).fs
  | .recordExternal step path loss now => record_external fs step path loss now
  | .loadLatest loadFails => (load_latest_checkpoint fs loadFails).1

def applyOps (envMain : Bool) (fs : FS) (ops : List MgrOp) : FS :=
  ops.foldl (applyOp envMain) fs

/-- The manifest invariant of the spec: a set latest pointer references a
history record with ok = true. -/
def manifestInv (m : Manifest) : Prop :=
  ∀ s, m.latest = some s → ∃ c ∈ m.checkpoints, c.step = s ∧ c.ok = true

/-- A leader save of the given step (loss omitted, clock fixed at 0). -/
def mkSave (s : Nat) : MgrOp := MgrOp.save s none (some true) 0

/-- The manifest record such a save appends. -/
def mkEntry (s : Nat) : CheckpointInfo := ⟨s, checkpoint_dir s, none, 0, true⟩

/-- A leader save of step 5 followed by a loadLatest whose artifact load
raises (corrupt blob). -/
def c1Ops : List MgrOp :=
  [MgrOp.save 5 none (some true) 0, MgrOp.loadLatest (fun _ => true)]

/-- The on-disk state a crash leaves when save(7) dies after writing the
temporary directory (state and metadata files complete) but before the atomic
rename: the temp directory exists, the final step_00000007 directory and the
manifest do not. -/
def crashFS : FS := ⟨[("step_00000007.tmp", ⟨[STATE_FILE, META_FILE]⟩)], none⟩

/-- A checkpoint directory containing only the metadata file (the shape
record_external leaves behind). -/
def metaOnlyFS : FS := ⟨[("step_00000009", ⟨[META_FILE]⟩)], none⟩

/-- A store whose manifest points at step 7 while the stored history record
for step 7 carries a different path, a set loss, a set timestamp, and
ok = false; the step_00000007 directory re-verifies on disk. -/
def fastPathFS : FS :=
  ⟨[("step_00000007", ⟨[STATE_FILE, META_FILE]⟩)],
   some ⟨some 7, [⟨7, "elsewhere", some 3, 99, false⟩]⟩⟩

/-! ### Basic directory-store lemmas -/

theorem findDir_removeEntry (l : List (String × CkptDir)) (p q : String) :
    findDir (removeEntry l p) q = if q = p then none else findDir l q := by
  induction l with
  | nil => simp [findDir, removeEntry]
  | cons e es ih =>
    by_cases he : e.1 = p
    · simp only [removeEntry, if_pos he, ih, findDir]
      by_cases hq : q = p
      · simp [hq]
      · simp only [if_neg hq]
        rw [if_neg (by rw [he]; exact fun hh => hq hh.symm)]
    · simp only [removeEntry, if_neg he, findDir]
      by_cases heq : e.1 = q
      · rw [if_pos heq, if_neg (fun h => he (heq.trans h)), if_pos heq]
      · rw [if_neg heq, ih]
        by_cases hq : q = p
        · simp [hq]
        · simp [hq, if_neg heq]

theorem findDir_append_single (l : List (String × CkptDir)) (p q : String)
    (d : CkptDir) :
    findDir (l ++ [(p, d)]) q =
      match findDir l q with
      | some d2 => some d2
      | none => if p = q then some d else none := by
  induction l with
  | nil => simp [findDir]
  | cons e es ih =>
    by_cases heq : e.1 = q
    · simp [findDir, heq]
    · simp [findDir, heq, ih]

theorem lookupDir_removeDir (fs : FS) (p q : String) :
    (fs.removeDir p).lookupDir q = if q = p then none else fs.lookupDir q :=
  findDir_removeEntry fs.dirs p q

theorem lookupDir_setDir (fs : FS) (p q : String) (d : CkptDir) :
    (fs.setDir p d).lookupDir q = if q = p then some d else fs.lookupDir q := by
  show findDir (removeEntry fs.dirs p ++ [(p, d)]) q = _
  rw [findDir_append_single, findDir_removeEntry]
  by_cases hq : q = p
  · simp [hq]
  · simp only [if_neg hq]
    cases h : findDir fs.dirs q with
    | some d2 => simp [FS.lookupDir, h]
    | none => rw [if_neg (fun hh => hq hh.symm)]; simp [FS.lookupDir, h]

theorem manifest_removeDir (fs : FS) (p : String) :
    (fs.removeDir p).manifest = fs.manifest := rfl

theorem manifest_setDir (fs : FS) (p : String) (d : CkptDir) :
    (fs.setDir p d).manifest = fs.manifest := rfl

theorem manifest_makedirs (fs : FS) (p : String) :
    (fs.makedirs p).manifest = fs.manifest := by
  cases h : fs.lookupDir p <;> simp [FS.makedirs, h, manifest_setDir]

theorem manifest_addFile (fs : FS) (p fname : String) :
    (fs.addFile p fname).manifest = fs.manifest := by
  cases h : fs.lookupDir p <;> simp [FS.addFile, h, manifest_setDir]

theorem manifest_renameDir (fs : FS) (src dst : String) :
    (fs.renameDir src dst).manifest = fs.manifest := by
  cases h : fs.lookupDir src <;> simp [FS.renameDir, h, manifest_setDir, manifest_removeDir]

theorem lookupDir_record_checkpoint (fs : FS) (i : CheckpointInfo) (q : String) :
    (record_checkpoint fs i).lookupDir q = fs.lookupDir q := rfl

theorem load_manifest_record_checkpoint (fs : FS) (i : CheckpointInfo) :
    load_manifest (record_checkpoint fs i) =
      ⟨if i.ok then some i.step else (load_manifest fs).latest,
       lastN ((load_manifest fs).checkpoints ++ [i]) 20⟩ := rfl

theorem load_manifest_congr (x y : FS) (h : x.manifest = y.manifest) :
    load_manifest x = load_manifest y := by
  simp [load_manifest, h]

theorem save_leader_lookup (envMain : Bool) (fs : FS) (step : Nat)
    (loss : Option ℚ) (im : Option Bool) (now : ℚ)
    (h : im.getD envMain = true) (q : String) :
    ((save envMain fs step loss im now).fs).lookupDir q =
      if q = checkpoint_dir step then some ⟨[STATE_FILE, META_FILE]⟩
      else if q = checkpoint_dir step ++ ".tmp" then none
      else fs.lookupDir q := by
  have hfs1 : ∀ r, ((if (fs.lookupDir (checkpoint_dir step ++ ".tmp")).isSome
      then fs.removeDir (checkpoint_dir step ++ ".tmp") else fs).lookupDir r) =
      if r = checkpoint_dir step ++ ".tmp" then none else fs.lookupDir r := by
    intro r
    by_cases hx : (fs.lookupDir (checkpoint_dir step ++ ".tmp")).isSome = true
    · simp [hx, lookupDir_removeDir]
    · by_cases hr : r = checkpoint_dir step ++ ".tmp"
      · simp [hx, hr, Option.not_isSome_iff_eq_none.mp hx]
      · simp [hx, hr]
  simp only [save, h, Bool.not_true, Bool.false_eq_true, if_false]
  rw [lookupDir_record_checkpoint]
  have e1 : ((if (fs.lookupDir (checkpoint_dir step ++ ".tmp")).isSome
      then fs.removeDir (checkpoint_dir step ++ ".tmp") else fs).makedirs
        (checkpoint_dir step ++ ".tmp")) =
      (if (fs.lookupDir (checkpoint_dir step ++ ".tmp")).isSome
      then fs.removeDir (checkpoint_dir step ++ ".tmp") else fs).setDir
        (checkpoint_dir step ++ ".tmp") ⟨[]⟩ := by
    simp [FS.makedirs, hfs1]
  rw [e1]
  have e2 : ∀ (x : FS),
      (x.setDir (checkpoint_dir step ++ ".tmp") ⟨[]⟩).addFile
        (checkpoint_dir step ++ ".tmp") STATE_FILE =
      (x.setDir (checkpoint_dir step ++ ".tmp") ⟨[]⟩).setDir
        (checkpoint_dir step ++ ".tmp") ⟨[STATE_FILE]⟩ := by
    intro x
    simp [FS.addFile, lookupDir_setDir]
  rw [e2]
  have e3 : ∀ (x : FS),
      (x.setDir (checkpoint_dir step ++ ".tmp") ⟨[STATE_FILE]⟩).addFile
        (checkpoint_dir step ++ ".tmp") META_FILE =
      (x.setDir (checkpoint_dir step ++ ".tmp") ⟨[STATE_FILE]⟩).setDir
        (checkpoint_dir step ++ ".tmp") ⟨[STATE_FILE, META_FILE]⟩ := by
    intro x
    simp [FS.addFile, lookupDir_setDir]
    rw [if_neg (show ¬(META_FILE = STATE_FILE) from by decide)]
  have e3x := e3 ((if (fs.lookupDir (checkpoint_dir step ++ ".tmp")).isSome
      then fs.removeDir (checkpoint_dir step ++ ".tmp") else fs).setDir
        (checkpoint_dir step ++ ".tmp") ⟨[]⟩)
  rw [e3x]
  have e4 : ∀ (x : FS),
      (x.setDir (checkpoint_dir step ++ ".tmp") ⟨[STATE_FILE, META_FILE]⟩).renameDir
        (checkpoint_dir step ++ ".tmp") (checkpoint_dir step) =
      ((x.setDir (checkpoint_dir step ++ ".tmp")
          ⟨[STATE_FILE, META_FILE]⟩).removeDir
        (checkpoint_dir step ++ ".tmp")).setDir (checkpoint_dir step)
          ⟨[STATE_FILE, META_FILE]⟩ := by
    intro x
    simp [FS.renameDir, lookupDir_setDir]
  rw [e4, lookupDir_setDir, lookupDir_removeDir]
  by_cases hq1 : q = checkpoint_dir step
  · simp [hq1]
  · by_cases hq2 : q = checkpoint_dir step ++ ".tmp"
    · simp [hq1, hq2]
    · simp [hq1, hq2, lookupDir_setDir, hfs1]

theorem save_leader_manifest (envMain : Bool) (fs : FS) (step : Nat)
    (loss : Option ℚ) (im : Option Bool) (now : ℚ)
    (h : im.getD envMain = true) :
    load_manifest ((save envMain fs step loss im now).fs) =
      ⟨some step,
       lastN ((load_manifest fs).checkpoints ++
         [⟨step, checkpoint_dir step, loss, now, true⟩]) 20⟩ := by
  simp only [save, h, Bool.not_true, Bool.false_eq_true, if_false]
  rw [load_manifest_record_checkpoint]
  have hm : ∀ (x : FS) (t c : String),
      load_manifest ((((x.makedirs t).addFile t STATE_FILE).addFile t
        META_FILE).renameDir t c) = load_manifest x := by
    intro x t c
    apply load_manifest_congr
    rw [manifest_renameDir, manifest_addFile, manifest_addFile, manifest_makedirs]
  have hx : ∀ (t : String), load_manifest
      (if (fs.lookupDir t).isSome then fs.removeDir t else fs) =
      load_manifest fs := by
    intro t
    by_cases hcond : (fs.lookupDir t).isSome = true
    · simp only [hcond, if_true]
      exact load_manifest_congr _ _ (manifest_removeDir fs t)
    · simp [hcond]
  rw [hm, hx]
  simp

/-! ### lastN lemmas -/

theorem lastN_of_length_le (l : List α) (n : Nat) (h : l.length ≤ n) :
    lastN l n = l := by
  unfold lastN
  rw [Nat.sub_eq_zero_of_le h, List.drop_zero]

theorem lastN_reverse_take (l : List α) (n : Nat) :
    lastN l n = (l.reverse.take n).reverse := by
  unfold lastN
  rw [List.reverse_take]
  simp

theorem lastN_length_le (l : List α) (n : Nat) : (lastN l n).length ≤ n := by
  unfold lastN
  rw [List.length_drop]
  omega

theorem map_lastN (f : α → β) (l : List α) (n : Nat) :
    (lastN l n).map f = lastN (l.map f) n := by
  unfold lastN
  rw [List.map_drop]
  simp

theorem lastN_append_lastN (l m : List α) (n : Nat) :
    lastN (lastN l n ++ m) n = lastN (l ++ m) n := by
  simp only [lastN_reverse_take, List.reverse_append, List.reverse_reverse,
    List.take_append_eq_append_take, List.take_take, List.length_reverse]
  rw [min_eq_left (Nat.sub_le n m.length)]

theorem mem_lastN_append (l : List α) (x : α) (n : Nat) (hn : 0 < n) :
    x ∈ lastN (l ++ [x]) n := by
  unfold lastN
  have hk : (l ++ [x]).length - n ≤ l.length := by
    rw [List.length_append]
    simp only [List.length_singleton]
    omega
  rw [List.drop_append_of_le_length hk]
  exact List.mem_append_right _ (List.mem_singleton_self x)

/-! ### Digit and path-name lemmas -/

theorem digitChar_isDigit (d : Nat) (h : d < 10) : (digitChar d).isDigit = true := by
  interval_cases d <;> decide

theorem natDigitsAux_isDigit (fuel : Nat) :
    ∀ (n : Nat), ∀ c ∈ natDigitsAux fuel n, c.isDigit = true := by
  induction fuel with
  | zero => intro n c hc; simp [natDigitsAux] at hc
  | succ fuel ih =>
    intro n c hc
    by_cases hn : n < 10
    · simp only [natDigitsAux, if_pos hn, List.mem_singleton] at hc
      subst hc
      exact digitChar_isDigit n hn
    · simp only [natDigitsAux, if_neg hn, List.mem_append] at hc
      cases hc with
      | inl h2 => exact ih _ c h2
      | inr h2 =>
        rw [List.mem_singleton] at h2
        subst h2
        exact digitChar_isDigit _ (Nat.mod_lt n (by omega))

theorem pad8_isDigit (n : Nat) : ∀ c ∈ (pad8 n).data, c.isDigit = true := by
  intro c hc
  have hc2 : c ∈ List.replicate (8 - (natDigits n).length) '0' ++ natDigits n := hc
  rcases List.mem_append.mp hc2 with h1 | h2
  · rw [List.eq_of_mem_replicate h1]
    decide
  · exact natDigitsAux_isDigit _ _ c h2

theorem checkpoint_dir_ne_tmp (s t : Nat) :
    checkpoint_dir s ≠ checkpoint_dir t ++ ".tmp" := by
  intro h
  have hd : "step_".data ++ (pad8 s).data =
      "step_".data ++ ((pad8 t).data ++ ".tmp".data) := by
    have h2 := congrArg String.data h
    simpa [checkpoint_dir, String.data_append, List.append_assoc] using h2
  have h3 := List.append_cancel_left hd
  have hmem : '.' ∈ (pad8 s).data := by
    rw [h3]
    exact List.mem_append_right _ (by decide)
  exact absurd (pad8_isDigit s '.' hmem) (by decide)

/-! ### Manifest-invariant preservation -/

theorem record_checkpoint_inv (fs : FS) (i : CheckpointInfo) (h : i.ok = true) :
    manifestInv (load_manifest (record_checkpoint fs i)) := by
  intro s hs
  rw [load_manifest_record_checkpoint] at hs
  simp only [h, if_true] at hs
  refine ⟨i, ?_, Option.some.inj hs, h⟩
  rw [load_manifest_record_checkpoint]
  exact mem_lastN_append _ i 20 (by omega)

theorem applyOp_inv (envMain : Bool) (fs : FS) (op : MgrOp)
    (hop : op.isLoadLatest = false) (h : manifestInv (load_manifest fs)) :
    manifestInv (load_manifest (applyOp envMain fs op)) := by
  cases op with
  | save step loss im now =>
    by_cases hw : im.getD envMain = true
    · simp only [applyOp, save, hw, Bool.not_true, Bool.false_eq_true, if_false]
      exact record_checkpoint_inv _ _ rfl
    · have hw2 : im.getD envMain = false := by
        cases hgd : im.getD envMain
        · rfl
        · exact absurd hgd hw
      simp only [applyOp, save, hw2, Bool.not_false, if_true]
      exact h
  | recordExternal step path loss now =>
    simp only [applyOp, record_external]
    exact record_checkpoint_inv _ _ rfl
  | loadLatest lf => simp [MgrOp.isLoadLatest] at hop

theorem applyOps_inv (envMain : Bool) (ops : List MgrOp) (fs0 : FS)
    (h0 : manifestInv (load_manifest fs0))
    (hops : ∀ op ∈ ops, op.isLoadLatest = false) :
    manifestInv (load_manifest (applyOps envMain fs0 ops)) := by
  induction ops generalizing fs0 with
  | nil => exact h0
  | cons op ops ih =>
    exact ih (applyOp envMain fs0 op)
      (applyOp_inv envMain fs0 op (hops op (List.mem_cons_self op ops)) h0)
      (fun o ho => hops o (List.mem_cons_of_mem op ho))

/-! ### Manifest-history evolution under sequences of leader saves -/

theorem applyOps_saves_checkpoints (steps : List Nat) (fs : FS)
    (h : (load_manifest fs).checkpoints.length ≤ 20) :
    (load_manifest (applyOps true fs (steps.map mkSave))).checkpoints =
      lastN ((load_manifest fs).checkpoints ++ steps.map mkEntry) 20 := by
  induction steps generalizing fs with
  | nil => simpa [applyOps] using (lastN_of_length_le _ 20 h).symm
  | cons s ss ih =>
    have hm : load_manifest (applyOp true fs (mkSave s)) =
        ⟨some s, lastN ((load_manifest fs).checkpoints ++ [mkEntry s]) 20⟩ := by
      simp only [mkSave, applyOp]
      exact save_leader_manifest true fs s none (some true) 0 rfl
    have hlen : (load_manifest (applyOp true fs (mkSave s))).checkpoints.length
        ≤ 20 := by
      rw [hm]
      exact lastN_length_le _ _
    calc (load_manifest (applyOps true fs ((s :: ss).map mkSave))).checkpoints
        = (load_manifest (applyOps true (applyOp true fs (mkSave s))
            (ss.map mkSave))).checkpoints := rfl
      _ = lastN ((load_manifest (applyOp true fs (mkSave s))).checkpoints ++
            ss.map mkEntry) 20 := ih _ hlen
      _ = lastN (lastN ((load_manifest fs).checkpoints ++ [mkEntry s]) 20 ++
            ss.map mkEntry) 20 := by rw [hm]
      _ = lastN (((load_manifest fs).checkpoints ++ [mkEntry s]) ++
            ss.map mkEntry) 20 := lastN_append_lastN _ _ _
      _ = lastN ((load_manifest fs).checkpoints ++ (s :: ss).map mkEntry) 20 := by
          rw [List.append_assoc, List.singleton_append, List.map_cons]

theorem applyOps_saves_keep_dir (steps : List Nat) (fs : FS) (name : String)
    (hne : ∀ t, name ≠ checkpoint_dir t ++ ".tmp")
    (h : (fs.lookupDir name).isSome = true) :
    ((applyOps true fs (steps.map mkSave)).lookupDir name).isSome = true := by
  induction steps generalizing fs with
  | nil => exact h
  | cons s ss ih =>
    refine ih (applyOp true fs (mkSave s)) ?_
    have hl := save_leader_lookup true fs s none (some true) 0 rfl name
    simp only [mkSave, applyOp]
    rw [hl]
    by_cases h1 : name = checkpoint_dir s
    · simp [h1]
    · rw [if_neg h1, if_neg (hne s)]
      exact h

theorem applyOps_saves_dir_present (steps : List Nat) (fs : FS) :
    ∀ s ∈ steps, ((applyOps true fs (steps.map mkSave)).lookupDir
      (checkpoint_dir s)).isSome = true := by
  induction steps generalizing fs with
  | nil => intro s hs; simp at hs
  | cons t ss ih =>
    intro s hs
    rcases List.mem_cons.mp hs with h1 | h2
    · subst h1
      refine applyOps_saves_keep_dir ss (applyOp true fs (mkSave s)) _
        (fun u => checkpoint_dir_ne_tmp s u) ?_
      have hl := save_leader_lookup true fs s none (some true) 0 rfl
        (checkpoint_dir s)
      simp only [mkSave, applyOp]
      rw [hl]
      simp
    · exact ih (applyOp true fs (mkSave t)) s h2

/-! ### Retry-supervisor lemmas -/

theorem run_aux_step (fn : Nat → Except String Unit) (p : RetryPolicy)
    (attempt fuel : Nat) :
    run_aux fn p attempt fuel =
      match fn attempt with
      | Except.ok _ => ⟨1, [], Except.ok ()⟩
      | Except.error e =>
        if classify_fault e = FaultType.RETRIABLE ∧ attempt < p.max_retries then
          match fuel with
          | 0 => ⟨1, [], Except.error e⟩
          | fuel + 1 =>
            let r := run_aux fn p (attempt + 1) fuel
            ⟨r.calls + 1, p.backoff_for attempt :: r.sleeps, r.outcome⟩
        else ⟨1, [], Except.error e⟩ := by
  rw [run_aux]

theorem run_aux_const_error (fn : Nat → Except String Unit) (p : RetryPolicy)
    (e : String) (he : ∀ i, fn i = Except.error e)
    (hc : classify_fault e = FaultType.RETRIABLE) :
    ∀ fuel attempt, fuel = p.max_retries - attempt →
      run_aux fn p attempt fuel =
        ⟨fuel + 1, (List.range' attempt fuel).map p.backoff_for,
         Except.error e⟩ := by
  intro fuel
  induction fuel with
  | zero =>
    intro attempt hf
    have hlt : ¬ attempt < p.max_retries := by omega
    rw [run_aux_step, he attempt]
    dsimp only
    rw [if_neg (fun hand => hlt hand.2)]
    simp
  | succ fuel ih =>
    intro attempt hf
    have hlt : attempt < p.max_retries := by omega
    rw [run_aux_step, he attempt]
    dsimp only
    rw [if_pos ⟨hc, hlt⟩]
    rw [ih (attempt + 1) (by omega)]
    simp [List.range'_succ]

/-- C6 (confirmed): classify_fault is pure and deterministic; a failure text is
classified RETRIABLE exactly when its case-lowered rendering contains one of
the fixed transient signature substrings, and NON_RETRIABLE exactly when it
contains none; identical texts always classify identically. -/
theorem classify_fault_signature_spec (t : String) :
    (classify_fault t = FaultType.RETRIABLE ↔
      ∃ sig ∈ RETRIABLE_SIGNATURES, sig.data <:+: lowerData t) ∧
    (classify_fault t = FaultType.NON_RETRIABLE ↔
      ¬ ∃ sig ∈ RETRIABLE_SIGNATURES, sig.data <:+: lowerData t) ∧
    (∀ t2 : String, t2 = t → classify_fault t2 = classify_fault t) := by
  have key : classify_fault t = FaultType.RETRIABLE ↔
      ∃ sig ∈ RETRIABLE_SIGNATURES, sig.data <:+: lowerData t := by
    simp only [classify_fault]
    by_cases h : (RETRIABLE_SIGNATURES.any
        fun sig => decide (sig.data <:+: lowerData t)) = true
    · rw [if_pos h]
      refine iff_of_true rfl ?_
      obtain ⟨sig, hmem, hp⟩ := List.any_eq_true.mp h
      exact ⟨sig, hmem, of_decide_eq_true hp⟩
    · rw [if_neg h]
      refine iff_of_false (by decide) ?_
      rintro ⟨sig, hmem, hinf⟩
      exact h (List.any_eq_true.mpr ⟨sig, hmem, decide_eq_true hinf⟩)
  refine ⟨key, ⟨?_, ?_⟩, fun t2 ht2 => by rw [ht2]⟩
  · intro hn hex
    have hr := key.mpr hex
    rw [hr] at hn
    exact FaultType.noConfusion hn
  · intro hex
    cases hcl : classify_fault t with
    | RETRIABLE => exact absurd (key.mp hcl) hex
    | NON_RETRIABLE => rfl

/-- Witness for C6 at concrete failure texts. -/
theorem classify_fault_signature_spec_witness :
    classify_fault "Timeout" = FaultType.RETRIABLE ∧
    classify_fault "ValueError: shape mismatch" = FaultType.NON_RETRIABLE ∧
    classify_fault "Timeout" = classify_fault "Timeout" := by
  refine ⟨?_, ?_, ?_⟩
  · exact (classify_fault_signature_spec "Timeout").1.mpr
      ⟨"timeout", by decide, by decide⟩
  · exact (classify_fault_signature_spec "ValueError: shape mismatch").2.1.mpr
      (by decide)
  · exact (classify_fault_signature_spec "Timeout").2.2 "Timeout" rfl

/-- C7 (confirmed): for a policy with positive base backoff and cap at least
the base, backoff_for attempt equals min(max_backoff, base_backoff * 2 ^
attempt), never exceeds max_backoff, and is non-decreasing in attempt. -/
theorem backoff_for_formula_bound_monotone (p : RetryPolicy)
    (hb : 0 < p.base_backoff) (hm : p.base_backoff ≤ p.max_backoff) :
    (∀ a, p.backoff_for a = min p.max_backoff (p.base_backoff * 2 ^ a)) ∧
    (∀ a, p.backoff_for a ≤ p.max_backoff) ∧
    (∀ a b, a ≤ b → p.backoff_for a ≤ p.backoff_for b) := by
  refine ⟨fun a => rfl, fun a => min_le_left _ _, fun a b hab => ?_⟩
  unfold RetryPolicy.backoff_for
  exact min_le_min le_rfl
    (mul_le_mul_of_nonneg_left (pow_le_pow_right₀ one_le_two hab) hb.le)

/-- Witness for C7 at the source's default policy values. -/
theorem backoff_for_formula_bound_monotone_witness :
    ((0:ℚ) < 10 ∧ (10:ℚ) ≤ 300) ∧
    RetryPolicy.backoff_for ⟨3, 10, 300⟩ 2 = min 300 (10 * 2 ^ 2) ∧
    RetryPolicy.backoff_for ⟨3, 10, 300⟩ 2 ≤ 300 ∧
    RetryPolicy.backoff_for ⟨3, 10, 300⟩ 1 ≤
      RetryPolicy.backoff_for ⟨3, 10, 300⟩ 2 := by
  have h := backoff_for_formula_bound_monotone ⟨3, 10, 300⟩ (by norm_num)
    (by norm_num)
  exact ⟨⟨by norm_num, by norm_num⟩, h.1 2, h.2.1 2, h.2.2 1 2 (by norm_num)⟩

/-- C4 (confirmed): with a work function that always raises the same
transient-signature fault and maxRetries = r, run_with_retries invokes the
work r + 1 times and then propagates the original failure; with a
non-retriable fault it invokes the work exactly once, performs no sleep, and
propagates immediately. -/
theorem run_with_retries_retry_and_nonretriable_counts
    (fn : Nat → Except String Unit) (p : RetryPolicy) (e : String) :
    ((∀ i, fn i = Except.error e) →
      classify_fault e = FaultType.RETRIABLE →
      run_with_retries fn p =
        ⟨p.max_retries + 1, (List.range p.max_retries).map p.backoff_for,
         Except.error e⟩) ∧
    (fn 0 = Except.error e →
      classify_fault e = FaultType.NON_RETRIABLE →
      run_with_retries fn p = ⟨1, [], Except.error e⟩) := by
  constructor
  · intro he hc
    rw [run_with_retries,
      run_aux_const_error fn p e he hc p.max_retries 0 (by omega),
      List.range_eq_range']
  · intro h0 hc
    rw [run_with_retries, run_aux_step, h0]
    dsimp only
    rw [if_neg (fun hand => FaultType.noConfusion (hc.symm.trans hand.1))]

/-- Witness for C4: a permanently transient fault with maxRetries = 2 runs
3 times and propagates it; a non-retriable fault runs once with no sleep. -/
theorem run_with_retries_counts_witness :
    run_with_retries (fun _ => Except.error "timeout") ⟨2, 1, 4⟩ =
      ⟨3, [1, 2], Except.error "timeout"⟩ ∧
    run_with_retries (fun _ => Except.error "assert failed") ⟨2, 1, 4⟩ =
      ⟨1, [], Except.error "assert failed"⟩ := by
  constructor
  · refine ((run_with_retries_retry_and_nonretriable_counts
        (fun _ => Except.error "timeout") ⟨2, 1, 4⟩ "timeout").1
        (fun _ => rfl) (by decide)).trans ?_
    norm_num [List.range_succ, RetryPolicy.backoff_for]
  · exact (run_with_retries_retry_and_nonretriable_counts
      (fun _ => Except.error "assert failed") ⟨2, 1, 4⟩ "assert failed").2
      rfl (by decide)

/-- C3 (code_bug): the claim says a set Graceful Terminator latch interrupts
the backoff sleep, aborting the retry loop with a distinct terminated outcome.
The source's run_with_retries never consults the latch (its sleep is a plain
time.sleep and GracefulTerminator is not an input of the loop), so even with
the latch set the loop sleeps the full computed backoff (10 s here) and then
propagates the original failure — no terminated outcome exists. -/
theorem run_with_retries_ignores_set_terminator :
    (GracefulTerminator.mk true).should_terminate = true ∧
    run_with_retries (fun _ => Except.error "timeout") ⟨1, 10, 300⟩ =
      ⟨2, [10], Except.error "timeout"⟩ := by
  refine ⟨rfl, ?_⟩
  refine (run_aux_const_error (fun _ => Except.error "timeout") ⟨1, 10, 300⟩
    "timeout" (fun _ => rfl) (by decide) 1 0 rfl).trans ?_
  norm_num [List.range', RetryPolicy.backoff_for]

/-- C8 (confirmed): a save call whose effective leader flag is false performs
no filesystem writes (directories and manifest unchanged), synchronizes at the
shared barrier, and returns the empty location string. -/
theorem save_nonleader_no_writes_empty_location (envMain : Bool) (fs : FS)
    (step : Nat) (loss : Option ℚ) (is_main : Option Bool) (now : ℚ)
    (h : is_main.getD envMain = false) :
    save envMain fs step loss is_main now = ⟨fs, "", true⟩ := by
  simp [save, h]

/-- Witness for C8: a non-leader save on a concrete store. -/
theorem save_nonleader_witness :
    ((some false).getD true = false) ∧
    save true ⟨[], none⟩ 7 none (some false) 2 = ⟨⟨[], none⟩, "", true⟩ :=
  ⟨rfl, save_nonleader_no_writes_empty_location true ⟨[], none⟩ 7 none
    (some false) 2 rfl⟩

/-- C5 (corrected), counterexample: a directory holding only the metadata file
passes the source's validity check (the "at least one other file" disjunct is
len(os.listdir(path)) > 0, which the metadata file itself satisfies), while
the claim says such a directory must fail. -/
theorem meta_only_dir_passes_validity_check :
    is_valid_checkpoint metaOnlyFS "step_00000009" = true ∧
    spec_valid_checkpoint metaOnlyFS "step_00000009" = false := by decide

/-- C5 (corrected), amended: the validity check passes exactly when the
directory exists and contains the metadata file — the third conjunct of the
source (state artifact present, or non-empty listing) is implied by the
presence of the metadata file, so a metadata-only directory passes. -/
theorem is_valid_checkpoint_iff_meta_present (fs : FS) (path : String) :
    is_valid_checkpoint fs path = true ↔
      ∃ d, fs.lookupDir path = some d ∧ META_FILE ∈ d.files := by
  unfold is_valid_checkpoint
  cases hl : fs.lookupDir path with
  | none => simp
  | some d =>
    dsimp only
    constructor
    · intro h
      have h1 := ((Bool.and_eq_true _ _).mp h).1
      exact ⟨d, rfl, List.elem_iff.mp h1⟩
    · rintro ⟨d2, hd2, hmem⟩
      obtain rfl : d = d2 := Option.some.inj hd2
      have h1 : d.files.contains META_FILE = true := List.elem_iff.mpr hmem
      have h2 : d.files.isEmpty = false := by
        cases hf : d.files
        · rw [hf] at hmem; simp at hmem
        · rfl
      rw [h1, h2]
      simp

/-- C10 (confirmed): whenever latest_checkpoint answers through the manifest's
latest pointer, the returned record is rebuilt from the step number alone: the
path is the derived step_<8-digit> name, loss is absent, timestamp is the
dataclass default 0.0, and ok is true — whatever the matching history record
stores; hence a record_external checkpoint registered at any other path is
never the record this fast path returns. -/
theorem latest_checkpoint_fast_path_derived_from_step (fs : FS) (s : Nat)
    (h1 : (load_manifest fs).latest = some s)
    (h2 : is_valid_checkpoint fs (checkpoint_dir s) = true) :
    latest_checkpoint fs = some ⟨s, checkpoint_dir s, none, 0, true⟩ := by
  unfold latest_checkpoint
  dsimp only
  rw [h1]
  dsimp only
  rw [if_pos h2]

/-- Witness for C10: the stored history record has a foreign path, a set loss,
a set timestamp and ok = false, yet the fast path returns the derived record. -/
theorem latest_checkpoint_fast_path_witness :
    (load_manifest fastPathFS).latest = some 7 ∧
    is_valid_checkpoint fastPathFS (checkpoint_dir 7) = true ∧
    latest_checkpoint fastPathFS = some ⟨7, checkpoint_dir 7, none, 0, true⟩ :=
  ⟨rfl, by decide,
   latest_checkpoint_fast_path_derived_from_step fastPathFS 7 rfl (by decide)⟩

/-- C2 (code_bug): after a crash between temp-directory write and rename
(crashFS: only step_00000007.tmp on disk, complete inside, no manifest),
latest_checkpoint does not return its pre-crash result (none): because
re.match(r"step_(\d+)") is not anchored at the end of the name, the fallback
scan matches the temp directory, which then passes the validity check and is
returned as a valid checkpoint at step 7 — contradicting the claim that the
leftover temp directory is never returned. -/
theorem crashed_save_temp_dir_returned_by_latest_checkpoint :
    latest_checkpoint ({} : FS) = none ∧
    latest_checkpoint crashFS =
      some ⟨7, "step_00000007.tmp", none, 0, true⟩ := by decide

/-- C1 (corrected), counterexample: a leader save of step 5 followed by a
loadLatest whose artifact load raises leaves the manifest with latest = 5
while the only history record for step 5 has ok = false — the invariant the
claim asserts over save / recordExternal / loadLatest sequences is violated,
because the load-failure handler flips ok without moving latest. -/
theorem loadLatest_failure_leaves_stale_latest_pointer :
    (load_manifest (applyOps true {} c1Ops)).latest = some 5 ∧
    (load_manifest (applyOps true {} c1Ops)).checkpoints =
      [⟨5, checkpoint_dir 5, none, 0, false⟩] ∧
    ¬ manifestInv (load_manifest (applyOps true {} c1Ops)) := by
  refine ⟨by decide, by decide, ?_⟩
  intro hinv
  obtain ⟨c, hc, hstep, hok⟩ := hinv 5 (by decide)
  rw [show (load_manifest (applyOps true {} c1Ops)).checkpoints =
    [⟨5, checkpoint_dir 5, none, 0, false⟩] from by decide] at hc
  rw [List.mem_singleton] at hc
  subst hc
  exact absurd hok (by decide)

/-- C1 (corrected), amended: after any sequence of save and recordExternal
operations (no loadLatest) from a state satisfying the invariant, a set
latest pointer always references a history record with ok = true (both
operations only record ok records and advance latest to them); and
_record_checkpoint of a failed record leaves latest unchanged. The claim's
further assertion about loadLatest is the part the counterexample refutes:
the load-failure handler invalidates the record without moving latest. -/
theorem manifest_latest_invariant_under_save_and_record_external
    (ops : List MgrOp) (envMain : Bool) (fs0 : FS)
    (h0 : manifestInv (load_manifest fs0))
    (hops : ∀ op ∈ ops, op.isLoadLatest = false)
    (fsx : FS) (bad : CheckpointInfo) (hbad : bad.ok = false) :
    manifestInv (load_manifest (applyOps envMain fs0 ops)) ∧
    (load_manifest (record_checkpoint fsx bad)).latest =
      (load_manifest fsx).latest := by
  refine ⟨applyOps_inv envMain ops fs0 h0 hops, ?_⟩
  rw [load_manifest_record_checkpoint]
  simp [hbad]

/-- Witness for the amended C1: a save then an external record from the empty
store, plus a failed record appended to the empty store. -/
theorem manifest_latest_invariant_witness :
    manifestInv (load_manifest (applyOps true {}
      [mkSave 3, MgrOp.recordExternal 4 "ext" none 1])) ∧
    (load_manifest (record_checkpoint ({} : FS)
      ⟨9, "p", none, 0, false⟩)).latest = (load_manifest ({} : FS)).latest :=
  manifest_latest_invariant_under_save_and_record_external
    [mkSave 3, MgrOp.recordExternal 4 "ext" none 1] true {}
    (fun s hs => by simp [load_manifest] at hs)
    (by decide) {} ⟨9, "p", none, 0, false⟩ rfl

/-- C9 (confirmed): after a sequence of leader saves with strictly increasing
steps, the manifest history holds at most 20 records, those records are
exactly the most recent 20 steps of the sequence, and the on-disk step
directory of every saved step is still present (older records drop out of the
manifest only; their artifacts are not deleted). -/
theorem manifest_history_capped_at_20_most_recent (steps : List Nat)
    (hinc : steps.Chain' (· < ·)) :
    (load_manifest (applyOps true {} (steps.map mkSave))).checkpoints.length
      ≤ 20 ∧
    (load_manifest (applyOps true {} (steps.map mkSave))).checkpoints.map
      (fun c => c.step) = lastN steps 20 ∧
    ∀ s ∈ steps, ((applyOps true {} (steps.map mkSave)).lookupDir
      (checkpoint_dir s)).isSome = true := by
  have hck2 : (load_manifest (applyOps true {} (steps.map mkSave))).checkpoints
      = lastN (steps.map mkEntry) 20 := by
    simpa [load_manifest] using
      applyOps_saves_checkpoints steps {} (by simp [load_manifest])
  refine ⟨?_, ?_, applyOps_saves_dir_present steps {}⟩
  · rw [hck2]
    exact lastN_length_le _ _
  · rw [hck2, map_lastN, List.map_map]
    congr 1
    exact List.map_id steps

/-- Witness for C9: 25 sequential saves keep exactly the records of steps
5..24 (the most recent 20) and the step_00000009 directory survives on disk
after its record has been dropped from the manifest. -/
theorem manifest_history_capped_witness :
    (List.range 25).Chain' (· < ·) ∧
    (load_manifest (applyOps true {}
      ((List.range 25).map mkSave))).checkpoints.length ≤ 20 ∧
    (load_manifest (applyOps true {}
      ((List.range 25).map mkSave))).checkpoints.map (fun c => c.step) =
      lastN (List.range 25) 20 ∧
    ((applyOps true {} ((List.range 25).map mkSave)).lookupDir
      (checkpoint_dir 9)).isSome = true := by
  have hchain : (List.range 25).Chain' (· < ·) :=
    List.chain'_iff_pairwise.mpr (List.pairwise_lt_range 25)
  have h := manifest_history_capped_at_20_most_recent (List.range 25) hchain
  exact ⟨hchain, h.1, h.2.1, h.2.2 9 (by decide)⟩
